import Mathlib

/-
Verification of the synchronization core and the Range widget of the
"inputs" repository.

Only src/range.js is present in the repository snapshot; the Input store
(src/input.js), the bind coordinator (src/bind.js) and the disposal signal
(src/disposal.js) are described by the specification but their sources are
absent.  Those three components are therefore modelled from the spec
(each such definition carries a doc comment starting with
"Modelled from the spec:"), while the Range embedding below is a direct
shallow embedding of src/range.js.

JavaScript numbers are modelled as rationals extended with a NaN element
(JSNum); the arithmetic the claims exercise (one addition and a halving)
is exact, so no floating-point rounding is relevant to any claim.
DOM-side behaviour that is not in the source (clamping of a range input's
value by the browser, CSS styling) is outside the embedding: the input
element is modelled as a plain store of the number assigned to it, and
style options are omitted because no claim concerns them.
-/

namespace Inputs

/-- A JavaScript number: either NaN or a rational value. -/
inductive JSNum where
  | nan : JSNum
  | num : ℚ → JSNum
deriving DecidableEq

/-- Addition of JS numbers; NaN propagates. -/
def JSNum.add : JSNum → JSNum → JSNum
  | JSNum.num a, JSNum.num b => JSNum.num (a + b)
  | _, _ => JSNum.nan

/-- Halving of a JS number (division by the exact constant 2); NaN propagates. -/
def JSNum.half : JSNum → JSNum
  | JSNum.num a => JSNum.num (a / 2)
  | JSNum.nan => JSNum.nan

/-- A JavaScript value as far as the Range options are concerned:
undefined, a number, a boolean, a string, or a function from numbers to
strings (the shape a format function is used at). -/
inductive JSVal where
  | undefined : JSVal
  | number : JSNum → JSVal
  | boolean : Bool → JSVal
  | string : String → JSVal
  | function : (JSNum → String) → JSVal

/-- The test `x === undefined`. -/
def JSVal.isUndefined : JSVal → Bool
  | JSVal.undefined => true
  | _ => false

/-- The test `typeof x === "function"`. -/
def JSVal.isFunction : JSVal → Bool
  | JSVal.function _ => true
  | _ => false

/-- The unary `+x` numeric coercion.  String-to-number parsing is kept
abstract (the `parse` parameter); `+undefined` and `+function` are NaN,
booleans coerce to 0 or 1, numbers are themselves. -/
def toNumber (parse : String → JSNum) : JSVal → JSNum
  | JSVal.undefined => JSNum.nan
  | JSVal.number n => n
  | JSVal.boolean b => JSNum.num (if b then 1 else 0)
  | JSVal.string s => parse s
  | JSVal.function _ => JSNum.nan

/-- The error thrown by Range when its format option fails the typeof check. -/
inductive JSError where
  | typeError : String → JSError
deriving DecidableEq

/-- The options object of Range.  Destructuring defaults from the source:
label defaults to the empty string, the rest default to undefined (the
format default, a function, is applied inside Range).  The style option is
omitted: it only feeds CSS. -/
structure RangeOptions where
  format : JSVal := JSVal.undefined
  label : String := ""
  value : JSVal := JSVal.undefined
  step : JSVal := JSVal.undefined

/-- The form returned by Range: the slider element's min/max/step/value
slots, the output element's displayed text, the form's own value property
(an expando, absent until the oninput handler first runs, hence Option),
the captured format closure and the label. -/
structure RangeForm where
  inputMin : JSNum
  inputMax : JSNum
  /-- none models the string "any" assigned when step is undefined. -/
  inputStep : Option JSNum
  /-- the slider element's numeric value (what valueAsNumber reads). -/
  inputValue : JSNum
  /-- output.value; none before the first oninput run. -/
  outputValue : Option String
  /-- form.value; none before the first oninput run. -/
  formValue : Option JSNum
  formatFn : JSNum → String
  label : String

/-- The oninput handler of src/range.js:
`output.value = format(form.value = input.valueAsNumber)`. -/
def RangeForm.oninput (fm : RangeForm) : RangeForm :=
  { fm with
    formValue := some fm.inputValue
    outputValue := some (fm.formatFn fm.inputValue) }

/-- An input event on the slider: the slider's value becomes v and the
registered oninput handler runs synchronously. -/
def RangeForm.inputEvent (fm : RangeForm) (v : JSNum) : RangeForm :=
  RangeForm.oninput { fm with inputValue := v }

/-- The extent argument after its destructuring default `[0, 1]`. -/
def extentRaw (extent : Option (JSVal × JSVal)) : JSVal × JSVal :=
  extent.getD (JSVal.number (JSNum.num 0), JSVal.number (JSNum.num 1))

/-- Shallow embedding of Range from src/range.js.  `parse` stands for JS
string-to-number coercion and `toLocaleStringEn` for the default format
closure `d => d.toLocaleString("en")`.  The typeof check on format runs
before any element is constructed; on failure a TypeError is thrown
(Except.error) and no form exists.  Otherwise min and max are numerically
coerced, step is "any" when undefined, the initial slider value is
`(min + max) / 2` when the value option is undefined and `+value`
otherwise, and the oninput handler is invoked once before returning. -/
def Range (parse : String → JSNum) (toLocaleStringEn : JSNum → String)
    (extent : Option (JSVal × JSVal)) (opts : RangeOptions) :
    Except JSError RangeForm :=
  let format : JSVal :=
    if opts.format.isUndefined then JSVal.function toLocaleStringEn else opts.format
  match format with
  | JSVal.function f =>
    let minN : JSNum := toNumber parse (extentRaw extent).1
    let maxN : JSNum := toNumber parse (extentRaw extent).2
    let stepV : Option JSNum :=
      if opts.step.isUndefined then none else some (toNumber parse opts.step)
    let initV : JSNum :=
      if opts.value.isUndefined then (minN.add maxN).half else toNumber parse opts.value
    let fm : RangeForm :=
      { inputMin := minN, inputMax := maxN, inputStep := stepV, inputValue := initV,
        outputValue := none, formValue := none, formatFn := f, label := opts.label }
    Except.ok fm.oninput
  | _ => Except.error (JSError.typeError ("format is not a function"))

/-- The invariant maintained by the oninput handler: the form's value
property mirrors the slider's numeric value and the output element
displays the formatted form value. -/
def rangeInvariant (fm : RangeForm) : Prop :=
  fm.formValue = some fm.inputValue ∧
  fm.outputValue = some (fm.formatFn fm.inputValue)

/-- The concrete form produced by `Range (fun _ => JSNum.nan) (fun _ => "") none {}`,
used by witnesses. -/
def fm0 : RangeForm :=
  { inputMin := JSNum.num 0, inputMax := JSNum.num 1, inputStep := none,
    inputValue := ((JSNum.num 0).add (JSNum.num 1)).half,
    outputValue := some "",
    formValue := some (((JSNum.num 0).add (JSNum.num 1)).half),
    formatFn := fun _ => "", label := "" }

/-- Modelled from the spec: src/input.js is absent from src/.  The Input
store wraps a single mutable value slot; every mutation through its public
setter is followed, synchronously, by exactly one change notification, and
the value observable during that notification is the freshly written one.
The notifications field logs, in order, the value observable at each
emitted notification. -/
structure InputStore (α : Type) where
  value : α
  notifications : List α

/-- Modelled from the spec: the Input store's public setter: first the
mutation, then exactly one synchronous notification, which observes the
already-updated value. -/
def InputStore.setValue {α : Type} (s : InputStore α) (x : α) : InputStore α :=
  let s1 : InputStore α := { s with value := x }
  { s1 with notifications := s1.notifications ++ [s1.value] }

/-- A sequence of calls to the Input store's public setter, in order. -/
def InputStore.setAll {α : Type} (s : InputStore α) (xs : List α) : InputStore α :=
  xs.foldl InputStore.setValue s

/-- Modelled from the spec: src/bind.js and the views it coordinates.  A
world of views: view i holds value `values i`, and `subs` is the list of
active subscriptions.  A subscription (e, r) means: when view e emits its
change notification, copy e's current value into view r through r's own
setter, unless r already holds that value (feedback-loop suppression). -/
structure World (α : Type) where
  values : Nat → α
  subs : List (Nat × Nat)

/-- Write x into view i's value slot (the mutation half of the setter). -/
def World.setVal {α : Type} (w : World α) (i : Nat) (x : α) : World α :=
  { w with values := fun j => if j = i then x else w.values j }

mutual

/-- Modelled from the spec: setting view i's value through its public
setter: mutate the slot, then synchronously notify, in registration order,
every subscription whose emitter is i.  Fuel bounds the depth of the
synchronous cascade; none means the cascade did not complete within the
fuel (the shape an unsuppressed feedback loop would take). -/
def setF {α : Type} [DecidableEq α] : Nat → World α → Nat → α → Option (World α)
  | 0, _, _, _ => none
  | fuel + 1, w, i, x => notifyF fuel (w.setVal i x) i (w.setVal i x).subs

/-- Run the pending subscription list for the notification emitted by view
i: a subscription (e, r) with e = i copies the emitter's current value into
r via r's setter (which re-dispatches, so r is treated as itself emitting),
unless r already holds that value, in which case propagation is
suppressed. -/
def notifyF {α : Type} [DecidableEq α] :
    Nat → World α → Nat → List (Nat × Nat) → Option (World α)
  | _, w, _, [] => some w
  | 0, _, _, _ :: _ => none
  | fuel + 1, w, i, (e, r) :: rest =>
    if e = i then
      if w.values r = w.values i then notifyF fuel w i rest
      else
        match setF fuel w r (w.values i) with
        | none => none
        | some w2 => notifyF fuel w2 i rest
    else notifyF fuel w i rest

end

/-- Modelled from the spec: the caller errors bind reports synchronously. -/
inductive BindError where
  | selfBinding : BindError
  | emptySources : BindError
deriving DecidableEq

/-- Modelled from the spec: bind(target, sources).  Supplying zero sources
or binding a target to itself is a usage error reported synchronously at
the call (an Except.error, produced before any subscription is created and
for every fuel, including 0 — never deferred into a later notification).
Otherwise: with a single source the binding is bidirectional (a
subscription in each direction); with multiple sources it is
source-to-target only.  Immediately upon binding the target's value is set
from the first source's current value through the target's setter, as if
that source had just emitted a change.  The inner Option is the fuel-bound
cascade of that initialization; the created subscriptions are returned so
the lifetime signal's teardown can remove exactly them. -/
def bind {α : Type} [DecidableEq α] (fuel : Nat) (w : World α) (target : Nat)
    (sources : List Nat) : Except BindError (Option (World α × List (Nat × Nat))) :=
  match sources with
  | [] => Except.error BindError.emptySources
  | s0 :: rest =>
    if target ∈ s0 :: rest then Except.error BindError.selfBinding
    else
      let created : List (Nat × Nat) :=
        match rest with
        | [] => [(s0, target), (target, s0)]
        | _ :: _ => (s0 :: rest).map (fun s => (s, target))
      let w1 : World α := { w with subs := w.subs ++ created }
      Except.ok ((setF fuel w1 target (w1.values s0)).map (fun w2 => (w2, created)))

/-- Modelled from the spec: when a binding's lifetime signal resolves,
every subscription created by that bind call is removed — and only those:
List.diff removes one occurrence per created subscription, so independent
bind calls on the same views do not interfere. -/
def teardown {α : Type} (w : World α) (created : List (Nat × Nat)) : World α :=
  { w with subs := w.subs.diff created }

/-- Modelled from the spec: the outcome events a disposal signal can emit.
Under normal operation the signal only ever resolves; the rejected
constructor exists to state that it never does. -/
inductive DisposalOutcome where
  | resolved : DisposalOutcome
  | rejected : DisposalOutcome
deriving DecidableEq

/-- Modelled from the spec: src/disposal.js is absent from src/.  The
trace records, first at the call itself and then at each observed document
mutation, whether the node is still reachable from the document root.  The
signal resolves at the first observation where it is not, and observation
then stops (the one-shot signal cannot fire again); it never rejects. -/
def disposalEvents : List Bool → List DisposalOutcome
  | [] => []
  | attached :: rest =>
    if attached then disposalEvents rest else [DisposalOutcome.resolved]

/-- Running a fresh single-source bind on a fresh world: the usage checks
pass, the two bidirectional subscriptions are created, and the
initialization cascade sets the target to the source's current value and
terminates (the write-back into the source is suppressed because the
source already holds that value). -/
theorem bind_single_run {α : Type} [DecidableEq α] (v : Nat → α) (s t : Nat)
    (hst : s ≠ t) :
    bind 10 (World.mk v []) t [s] =
      Except.ok (some (World.mk (fun j => if j = t then v s else v j) [(s, t), (t, s)],
        [(s, t), (t, s)])) := by
  have hts : t ≠ s := Ne.symm hst
  simp [bind, setF, notifyF, World.setVal, hts, hst]

/-- Running a fresh two-source bind on a fresh world: the usage checks
pass, only source-to-target subscriptions are created, and initialization
sets the target from the first source's current value. -/
theorem bind_multi_run {α : Type} [DecidableEq α] (v : Nat → α) (a b t : Nat)
    (hat : a ≠ t) (hbt : b ≠ t) :
    bind 10 (World.mk v []) t [a, b] =
      Except.ok (some (World.mk (fun j => if j = t then v a else v j) [(a, t), (b, t)],
        [(a, t), (b, t)])) := by
  have hta : t ≠ a := Ne.symm hat
  have htb : t ≠ b := Ne.symm hbt
  simp [bind, setF, notifyF, World.setVal, hat, hbt, hta, htb]

/-- Each setter call appends exactly one notification, observing the value
just written. -/
theorem setAll_notifications {α : Type} (init : InputStore α) (xs : List α) :
    (init.setAll xs).notifications = init.notifications ++ xs := by
  induction xs generalizing init with
  | nil => simp [InputStore.setAll]
  | cons x xs ih =>
    show ((init.setValue x).setAll xs).notifications = _
    rw [ih]
    simp [InputStore.setValue]

/-- C1: for every pair of views bound by bind(target, source), setting
source.value = x makes target.value become x within a cascade that
terminates inside a constant fuel budget (one hop), and no notification
re-triggered into the source changes source.value away from x: the
write-back is suppressed because the receiving side already holds x. -/
theorem bind_single_one_hop {α : Type} [DecidableEq α] (v : Nat → α) (s t : Nat)
    (hst : s ≠ t) (x : α) :
    ∃ w2 w3,
      bind 10 (World.mk v []) t [s] = Except.ok (some (w2, [(s, t), (t, s)])) ∧
      setF 10 w2 s x = some w3 ∧ w3.values t = x ∧ w3.values s = x := by
  have hts : t ≠ s := Ne.symm hst
  refine ⟨World.mk (fun j => if j = t then v s else v j) [(s, t), (t, s)], ?_⟩
  by_cases hvx : v s = x
  · refine ⟨World.mk (fun j => if j = s then x else if j = t then v s else v j)
      [(s, t), (t, s)], bind_single_run v s t hst, ?_, ?_, ?_⟩
    · simp [setF, notifyF, World.setVal, hst, hts, hvx]
    · simp [hts, hvx]
    · simp
  · refine ⟨World.mk (fun j => if j = t then x else if j = s then x
      else if j = t then v s else v j) [(s, t), (t, s)],
      bind_single_run v s t hst, ?_, ?_, ?_⟩
    · simp [setF, notifyF, World.setVal, hst, hts, hvx]
    · simp
    · simp [hst, hts]

/-- Witness for bind_single_one_hop at concrete inputs. -/
theorem bind_single_one_hop_witness :
    (0 : Nat) ≠ 1 ∧
      ∃ w2 w3,
        bind 10 (World.mk (fun n => (n : ℤ)) []) 1 [0] =
          Except.ok (some (w2, [(0, 1), (1, 0)])) ∧
        setF 10 w2 0 (5 : ℤ) = some w3 ∧ w3.values 1 = 5 ∧ w3.values 0 = 5 :=
  ⟨by decide, bind_single_one_hop (fun n => (n : ℤ)) 0 1 (by decide) 5⟩

/-- C2: immediately after bind(target, source) returns, target.value
equals source.value (and equals the source's pre-bind value); in the
multi-source form the target is initialized from the first source — all
before any subsequent change event. -/
theorem bind_initializes {α : Type} [DecidableEq α] (v : Nat → α) (s t a b : Nat)
    (hst : s ≠ t) (hat : a ≠ t) (hbt : b ≠ t) :
    (∃ w2, bind 10 (World.mk v []) t [s] = Except.ok (some (w2, [(s, t), (t, s)])) ∧
      w2.values t = w2.values s ∧ w2.values t = v s) ∧
    (∃ w2, bind 10 (World.mk v []) t [a, b] = Except.ok (some (w2, [(a, t), (b, t)])) ∧
      w2.values t = v a) := by
  have hts : t ≠ s := Ne.symm hst
  constructor
  · exact ⟨_, bind_single_run v s t hst, by simp [hst], by simp⟩
  · exact ⟨_, bind_multi_run v a b t hat hbt, by simp⟩

/-- Witness for bind_initializes at concrete inputs. -/
theorem bind_initializes_witness :
    ((0 : Nat) ≠ 1 ∧ (2 : Nat) ≠ 1 ∧ (3 : Nat) ≠ 1) ∧
      (∃ w2, bind 10 (World.mk (fun n => (n : ℤ)) []) 1 [0] =
          Except.ok (some (w2, [(0, 1), (1, 0)])) ∧
        w2.values 1 = w2.values 0 ∧ w2.values 1 = ((0 : Nat) : ℤ)) ∧
      (∃ w2, bind 10 (World.mk (fun n => (n : ℤ)) []) 1 [2, 3] =
          Except.ok (some (w2, [(2, 1), (3, 1)])) ∧
        w2.values 1 = ((2 : Nat) : ℤ)) :=
  ⟨⟨by decide, by decide, by decide⟩,
    bind_initializes (fun n => (n : ℤ)) 0 1 2 3 (by decide) (by decide) (by decide)⟩

/-- C3: for every sequence of values set through the Input store's public
setter, the notification log after the run is exactly the sequence set: as
many notifications as setter calls, and the value observable during the
Nth notification (logged synchronously right after its mutation) is the
Nth value set. -/
theorem input_store_sync {α : Type} (v0 : α) (xs : List α) :
    (InputStore.setAll (InputStore.mk v0 []) xs).notifications = xs ∧
    (InputStore.setAll (InputStore.mk v0 []) xs).notifications.length = xs.length := by
  have h := setAll_notifications (InputStore.mk v0 []) xs
  simp only [List.nil_append] at h
  exact ⟨h, by rw [h]⟩

/-- C4: with bind(target, [sourceA, sourceB]), a change on sourceA updates
target.value but never writes back into sourceB: propagation is
source-to-target only in the multi-source form. -/
theorem bind_multi_no_writeback {α : Type} [DecidableEq α] (v : Nat → α) (a b t : Nat)
    (hab : a ≠ b) (hat : a ≠ t) (hbt : b ≠ t) (x : α) :
    ∃ w2 w3,
      bind 10 (World.mk v []) t [a, b] = Except.ok (some (w2, [(a, t), (b, t)])) ∧
      setF 10 w2 a x = some w3 ∧
      w3.values t = x ∧ w3.values b = v b ∧ w3.values a = x := by
  have hta : t ≠ a := Ne.symm hat
  have htb : t ≠ b := Ne.symm hbt
  have hba : b ≠ a := Ne.symm hab
  refine ⟨World.mk (fun j => if j = t then v a else v j) [(a, t), (b, t)], ?_⟩
  by_cases hvx : v a = x
  · refine ⟨World.mk (fun j => if j = a then x else if j = t then v a else v j)
      [(a, t), (b, t)], bind_multi_run v a b t hat hbt, ?_, ?_, ?_, ?_⟩
    · simp [setF, notifyF, World.setVal, hat, hta, htb, hba, hvx]
    · simp [hta, hvx]
    · simp [hba, hbt]
    · simp
  · refine ⟨World.mk (fun j => if j = t then x else if j = a then x
      else if j = t then v a else v j) [(a, t), (b, t)],
      bind_multi_run v a b t hat hbt, ?_, ?_, ?_, ?_⟩
    · simp [setF, notifyF, World.setVal, hat, hta, htb, hba, hvx]
    · simp
    · simp [hba, hbt]
    · simp [hat]

/-- Witness for bind_multi_no_writeback at concrete inputs. -/
theorem bind_multi_no_writeback_witness :
    ((0 : Nat) ≠ 1 ∧ (0 : Nat) ≠ 2 ∧ (1 : Nat) ≠ 2) ∧
      ∃ w2 w3,
        bind 10 (World.mk (fun n => (n : ℤ)) []) 2 [0, 1] =
          Except.ok (some (w2, [(0, 2), (1, 2)])) ∧
        setF 10 w2 0 (7 : ℤ) = some w3 ∧
        w3.values 2 = 7 ∧ w3.values 1 = ((1 : Nat) : ℤ) ∧ w3.values 0 = 7 :=
  ⟨⟨by decide, by decide, by decide⟩,
    bind_multi_no_writeback (fun n => (n : ℤ)) 0 1 2 (by decide) (by decide) (by decide) 7⟩

/-- C5: once the binding's lifetime signal has resolved and its teardown
has removed every subscription this bind call created, no further
propagation occurs in either direction: a later change to the source
leaves target.value unchanged, and a later change to the target leaves the
source's value unchanged. -/
theorem bind_teardown_stops {α : Type} [DecidableEq α] (v : Nat → α) (s t : Nat)
    (hst : s ≠ t) (x : α) :
    ∃ w2,
      bind 10 (World.mk v []) t [s] = Except.ok (some (w2, [(s, t), (t, s)])) ∧
      (teardown w2 [(s, t), (t, s)]).subs = [] ∧
      (∃ w3, setF 10 (teardown w2 [(s, t), (t, s)]) s x = some w3 ∧
        w3.values t = w2.values t ∧ w3.values s = x) ∧
      (∃ w4, setF 10 (teardown w2 [(s, t), (t, s)]) t x = some w4 ∧
        w4.values s = w2.values s ∧ w4.values t = x) := by
  have hts : t ≠ s := Ne.symm hst
  have hteq : teardown (World.mk (fun j => if j = t then v s else v j) [(s, t), (t, s)])
      [(s, t), (t, s)] = World.mk (fun j => if j = t then v s else v j) [] := by
    simp [teardown, List.diff]
  refine ⟨_, bind_single_run v s t hst, ?_, ?_, ?_⟩
  · simp [hteq]
  · rw [hteq]
    refine ⟨World.mk (fun j => if j = s then x
      else if j = t then v s else v j) [], ?_, ?_, ?_⟩
    · simp [setF, notifyF, World.setVal]
    · simp [hts]
    · simp
  · rw [hteq]
    refine ⟨World.mk (fun j => if j = t then x
      else if j = t then v s else v j) [], ?_, ?_, ?_⟩
    · simp [setF, notifyF, World.setVal]
    · simp [hst, hts]
    · simp

/-- Witness for bind_teardown_stops at concrete inputs. -/
theorem bind_teardown_stops_witness :
    (0 : Nat) ≠ 1 ∧
      ∃ w2,
        bind 10 (World.mk (fun n => (n : ℤ)) []) 1 [0] =
          Except.ok (some (w2, [(0, 1), (1, 0)])) ∧
        (teardown w2 [(0, 1), (1, 0)]).subs = [] ∧
        (∃ w3, setF 10 (teardown w2 [(0, 1), (1, 0)]) 0 (9 : ℤ) = some w3 ∧
          w3.values 1 = w2.values 1 ∧ w3.values 0 = 9) ∧
        (∃ w4, setF 10 (teardown w2 [(0, 1), (1, 0)]) 1 (9 : ℤ) = some w4 ∧
          w4.values 0 = w2.values 0 ∧ w4.values 1 = 9) :=
  ⟨by decide, bind_teardown_stops (fun n => (n : ℤ)) 0 1 (by decide) 9⟩

/-- C6: supplying zero sources, or a source list containing the target
itself, makes bind report the caller error synchronously at the call — the
Except.error is produced for every fuel budget, including zero, so the
failure can never be deferred into a later notification cascade. -/
theorem bind_usage_errors {α : Type} [DecidableEq α] (fuel : Nat) (w : World α)
    (t : Nat) (sources : List Nat) (hmem : t ∈ sources) :
    bind fuel w t [] = Except.error BindError.emptySources ∧
    bind fuel w t sources = Except.error BindError.selfBinding := by
  constructor
  · rfl
  · cases sources with
    | nil => exact absurd hmem (by simp)
    | cons s0 rest => simp [bind, hmem]

/-- Witness for bind_usage_errors at concrete inputs, with fuel zero. -/
theorem bind_usage_errors_witness :
    (0 : Nat) ∈ ([0] : List Nat) ∧
      bind 0 (World.mk (fun _ => (0 : ℤ)) []) 0 [] =
        Except.error BindError.emptySources ∧
      bind 0 (World.mk (fun _ => (0 : ℤ)) []) 0 [0] =
        Except.error BindError.selfBinding :=
  ⟨by decide, bind_usage_errors 0 (World.mk (fun _ => (0 : ℤ)) []) 0 [0] (by decide)⟩

/-- C7: for every observation trace, the disposal signal resolves at most
once, only ever resolves (never rejects), and if the node is already
detached at call time (the first recorded observation) it resolves right
there, without requiring any further mutation. -/
theorem disposal_one_shot (trace : List Bool) :
    (disposalEvents trace).length ≤ 1 ∧
      (∀ e ∈ disposalEvents trace, e = DisposalOutcome.resolved) ∧
      (trace.head? = some false → disposalEvents trace = [DisposalOutcome.resolved]) := by
  induction trace with
  | nil => simp [disposalEvents]
  | cons a rest ih =>
    cases a
    · simp [disposalEvents]
    · simp only [disposalEvents, if_true, List.head?]
      refine ⟨ih.1, ih.2.1, ?_⟩
      intro h
      exact absurd h (by simp)

/-- Witness for disposal_one_shot on a trace that starts detached. -/
theorem disposal_one_shot_witness :
    (disposalEvents [false, true]).length ≤ 1 ∧
      disposalEvents [false, true] = [DisposalOutcome.resolved] :=
  ⟨(disposal_one_shot [false, true]).1, (disposal_one_shot [false, true]).2.2 rfl⟩

/-- C8: Range throws its TypeError exactly when the format option is
defined but is not a function — and then no form is constructed; when
format is a function or omitted no error is raised. -/
theorem range_format_typeerror (parse : String → JSNum) (lf : JSNum → String)
    (ext : Option (JSVal × JSVal)) (opts : RangeOptions) :
    (∃ e, Range parse lf ext opts = Except.error e) ↔
      (opts.format.isUndefined = false ∧ opts.format.isFunction = false) := by
  cases hf : opts.format <;>
    simp [Range, JSVal.isUndefined, JSVal.isFunction, hf]

/-- C9: the constructed slider's initial value is (min + max) / 2 after
numeric coercion of min and max when the value option is undefined, and
the numeric coercion of the value option otherwise; with no extent
argument, min defaults to 0 and max to 1. -/
theorem range_initial_value (parse : String → JSNum) (lf : JSNum → String)
    (ext : Option (JSVal × JSVal)) (opts : RangeOptions) (fm : RangeForm)
    (h : Range parse lf ext opts = Except.ok fm) :
    fm.inputValue = (if opts.value.isUndefined
        then ((toNumber parse (extentRaw ext).1).add
          (toNumber parse (extentRaw ext).2)).half
        else toNumber parse opts.value) ∧
      (ext = none → fm.inputMin = JSNum.num 0 ∧ fm.inputMax = JSNum.num 1) := by
  cases hf : opts.format <;> simp [Range, hf, JSVal.isUndefined] at h <;>
    subst h <;>
    refine ⟨by simp [RangeForm.oninput, JSVal.isUndefined], fun he => ?_⟩ <;>
    subst he <;> simp [RangeForm.oninput, extentRaw, toNumber]

/-- Witness for range_initial_value: the defaults produce a slider at the
midpoint 1/2 of the default [0, 1] extent. -/
theorem range_initial_value_witness :
    Range (fun _ => JSNum.nan) (fun _ => "") none {} = Except.ok fm0 ∧
      fm0.inputValue = ((JSNum.num 0).add (JSNum.num 1)).half ∧
      (fm0.inputMin = JSNum.num 0 ∧ fm0.inputMax = JSNum.num 1) :=
  ⟨rfl, (range_initial_value (fun _ => JSNum.nan) (fun _ => "") none {} fm0 rfl).1,
    (range_initial_value (fun _ => JSNum.nan) (fun _ => "") none {} fm0 rfl).2 rfl⟩

/-- C10: at the moment Range returns — the oninput handler having been
invoked once during construction, so the form's value is never unset — and
again after every input event on the slider, form.value equals the
slider's numeric value and the output element displays its formatted
rendering. -/
theorem range_oninput_invariant (parse : String → JSNum) (lf : JSNum → String)
    (ext : Option (JSVal × JSVal)) (opts : RangeOptions) :
    (∀ fm, Range parse lf ext opts = Except.ok fm → rangeInvariant fm) ∧
    (∀ (fm : RangeForm) (v : JSNum), rangeInvariant (fm.inputEvent v)) := by
  constructor
  · intro fm h
    cases hf : opts.format <;> simp [Range, hf, JSVal.isUndefined] at h <;>
      subst h <;> simp [rangeInvariant, RangeForm.oninput]
  · intro fm v
    simp [rangeInvariant, RangeForm.inputEvent, RangeForm.oninput]

/-- Witness for range_oninput_invariant: the invariant at return under the
defaults, and again after an input event moving the slider to 3. -/
theorem range_oninput_invariant_witness :
    rangeInvariant fm0 ∧ rangeInvariant (fm0.inputEvent (JSNum.num 3)) :=
  ⟨(range_oninput_invariant (fun _ => JSNum.nan) (fun _ => "") none {}).1 fm0 rfl,
   (range_oninput_invariant (fun _ => JSNum.nan) (fun _ => "") none {}).2 fm0 (JSNum.num 3)⟩

end Inputs
